import Mathlib

/-!
Shallow embedding of blobberc.py (jgraham/blobuploader).

The source has three functions relevant to the claims:

* filehash(filename, hashalgo): streams the file in blocks of 1024 ** 2
  bytes through a hashlib object and returns the hex digest.
* upload_file(hosts, filename, branch, auth, hashalgo, blobhash, attempts):
  copies the hosts list, shuffles the copy in place, then pops one host per
  iteration while the attempt counter n (starting at 1) is at most attempts
  and the pool is non-empty.  Each iteration POSTs the file; a 202 response
  carrying a truthy x-blob-url header leads to a HEAD check of that URL
  whose requests-level ok test is status < 400; 202 without a truthy header,
  and 401 or 403, break the loop; any other status continues it.
* upload_dir(hosts, dirname, branch, auth, hashalgo): filters the directory
  listing to entries for which os.path.isfile holds of the joined path, and
  calls upload_file on each joined path, omitting hashalgo and attempts so
  both take their defaults.

Effects are modelled as explicit parameters: the shuffle outcome is a
parameter constrained to be a permutation of hosts in the theorems; the
network is a pair of functions giving the POST response per host and the
HEAD status per URL (auth, branch, filename, hashalgo and blobhash are
fixed for a given call, so the per-call response is a function of the
chosen host); the filesystem is a function from filenames to byte lists.
Each POST attempt is recorded in a trace so the claims about attempt
counts, hosts contacted and reuse of the digest are observable.
-/

/-- Block size of the read loop in filehash: 1024 ** 2 bytes. -/
def blockSize : Nat := 1024 ^ 2

/-- Interface of hashlib as filehash uses it: hashlib.new(hashalgo) creates
a state, update feeds a block of bytes, hexdigest reads the digest. -/
structure Hashlib where
  State : Type
  new : String → State
  update : State → List Nat → State
  hexdigest : State → String

/-- Consecutive blocks of blockSize bytes, as the iter(...) read loop in
filehash produces them from the file contents. -/
def fileBlocks : List Nat → List (List Nat)
  | [] => []
  | b :: rest =>
      ((b :: rest).take blockSize) :: fileBlocks ((b :: rest).drop blockSize)
termination_by l => l.length
decreasing_by
  have hb : 0 < blockSize := by decide
  simp only [List.length_drop, List.length_cons]
  omega

/-- filehash from blobberc.py, over the file contents named by filename:
feed each block to the hash state and return the hex digest. -/
def filehash (H : Hashlib) (contents : List Nat) (hashalgo : String) : String :=
  H.hexdigest ((fileBlocks contents).foldl H.update (H.new hashalgo))

/-- The POST response as upload_file observes it: the status code and the
x-blob-url header, none when the header is missing. -/
structure Response where
  status_code : Nat
  x_blob_url : Option String
deriving DecidableEq

/-- Network effects of one upload_file call: post gives the response of the
POST against a host (the file, branch, auth, hashalgo and blobhash of the
call are fixed, so the response is a function of the chosen host), and head
gives the status code of the HEAD request to a URL. -/
structure Network where
  post : String → Response
  head : String → Nat

/-- One recorded POST attempt: the host contacted, and the hashalgo and
blobhash that _post_file puts into the upload URL. -/
structure Attempt where
  host : String
  hashalgo : String
  blobhash : String
deriving DecidableEq

/-- Observable outcome of one upload_file call: the file_uploaded flag, the
blob URL logged on success, the ordered trace of POST attempts, the value
the caller sees in its hosts list after the call, and the uploaded
filename. -/
structure UploadResult where
  file_uploaded : Bool
  blob_url : Option String
  trace : List Attempt
  caller_hosts : List String
  filename : String

/-- Attempt loop of upload_file.  The stack lists the pool in pop order
(head = next host popped from the end of the shuffled copy).  n is the
attempt counter starting at 1; the loop runs while n is at most attempts
and hosts remain.  Returns the file_uploaded flag, the blob URL on
success, and the trace of attempts made. -/
def upload_loop (net : Network) (hashalgo blobhash : String) (attempts : Nat) :
    Nat → List String → Bool × Option String × List Attempt
  | _, [] => (false, none, [])
  | n, host :: rest =>
    if n ≤ attempts then
      let resp := net.post host
      let att : Attempt := ⟨host, hashalgo, blobhash⟩
      if resp.status_code = 202 then
        -- blob_url = resp.headers.get of x-blob-url; a missing header and
        -- an empty value are both falsy in the Python test `if not blob_url`
        let blob_url := resp.x_blob_url.getD ""
        if blob_url = "" then (false, none, [att])
        else if net.head blob_url < 400 then (true, some blob_url, [att])
        else (false, none, [att])
      else if resp.status_code = 403 ∨ resp.status_code = 401 then
        (false, none, [att])
      else
        let r := upload_loop net hashalgo blobhash attempts (n + 1) rest
        (r.1, r.2.1, att :: r.2.2)
    else (false, none, [])

/-- The `if blobhash is None` step of upload_file: an omitted blobhash is
computed by filehash over the file contents. -/
def resolve_blobhash (H : Hashlib) (fs : String → List Nat)
    (filename hashalgo : String) : Option String → String
  | none => filehash H (fs filename) hashalgo
  | some h => h

/-- upload_file from blobberc.py.  The copy of hosts and its in-place
shuffle are modelled by the shuffled parameter, the permutation of hosts
that random.shuffle produced; theorems constrain it with List.Perm.  fs
maps a filename to its byte contents.  Popping from the end of the
shuffled copy is consuming shuffled.reverse from the head. -/
def upload_file (H : Hashlib) (net : Network) (shuffled : List String)
    (hosts : List String) (filename : String) (fs : String → List Nat)
    (hashalgo : String) (blobhash : Option String) (attempts : Nat) :
    UploadResult :=
  let bh := resolve_blobhash H fs filename hashalgo blobhash
  let host_pool := shuffled
  let r := upload_loop net hashalgo bh attempts 1 host_pool.reverse
  { file_uploaded := r.1, blob_url := r.2.1, trace := r.2.2,
    caller_hosts := hosts, filename := filename }

/-- Default value of the hashalgo parameter of upload_file. -/
def default_hashalgo : String := "sha512"

/-- Default value of the attempts parameter of upload_file. -/
def default_attempts : Nat := 10

/-- os.path.join as upload_dir uses it, joining the directory name and an
entry name. -/
def path_join (dirname f : String) : String := dirname ++ "/" ++ f

/-- Body of the for loop of upload_dir: one upload_file call per listed
file, in order, the i-th call using the i-th shuffle outcome and omitting
hashalgo, blobhash and attempts so they take their default values. -/
def upload_dir_loop (H : Hashlib) (net : Network) (shuffles : Nat → List String)
    (hosts : List String) (dirname : String) (fs : String → List Nat) :
    Nat → List String → List UploadResult
  | _, [] => []
  | i, f :: rest =>
      upload_file H net (shuffles i) hosts (path_join dirname f) fs
        default_hashalgo none default_attempts ::
      upload_dir_loop H net shuffles hosts dirname fs (i + 1) rest

/-- upload_dir from blobberc.py: listdir gives the entry names of dirname,
isfile is the os.path.isfile predicate on joined paths.  The hashalgo
parameter exists in the source signature but the upload_file call omits
it. -/
def upload_dir (H : Hashlib) (net : Network) (shuffles : Nat → List String)
    (hosts : List String) (dirname : String) (listdir : List String)
    (isfile : String → Bool) (fs : String → List Nat) (hashalgo : String) :
    List UploadResult :=
  let dir_files := listdir.filter fun f => isfile (path_join dirname f)
  upload_dir_loop H net shuffles hosts dirname fs 0 dir_files

/-- Response classes outside 202, 401, 403: the loop logs and retries. -/
def transient (r : Response) : Prop :=
  r.status_code ≠ 202 ∧ r.status_code ≠ 403 ∧ r.status_code ≠ 401

instance (r : Response) : Decidable (transient r) := by
  unfold transient
  infer_instance

section LoopLemmas

variable (net : Network) (a bh : String) (attempts : Nat)

lemma upload_loop_nil (n : Nat) :
    upload_loop net a bh attempts n [] = (false, none, []) := rfl

lemma upload_loop_budget (n : Nat) (host : String) (rest : List String)
    (hn : ¬ n ≤ attempts) :
    upload_loop net a bh attempts n (host :: rest) = (false, none, []) := by
  simp [upload_loop, hn]

lemma upload_loop_202_nourl (n : Nat) (host : String) (rest : List String)
    (hn : n ≤ attempts) (h202 : (net.post host).status_code = 202)
    (hurl : (net.post host).x_blob_url.getD "" = "") :
    upload_loop net a bh attempts n (host :: rest) =
      (false, none, [⟨host, a, bh⟩]) := by
  simp [upload_loop, hn, h202, hurl]

lemma upload_loop_202_head_ok (n : Nat) (host : String) (rest : List String)
    (hn : n ≤ attempts) (h202 : (net.post host).status_code = 202)
    (hurl : (net.post host).x_blob_url.getD "" ≠ "")
    (hhead : net.head ((net.post host).x_blob_url.getD "") < 400) :
    upload_loop net a bh attempts n (host :: rest) =
      (true, some ((net.post host).x_blob_url.getD ""), [⟨host, a, bh⟩]) := by
  simp [upload_loop, hn, h202, hurl, hhead]

lemma upload_loop_202_head_bad (n : Nat) (host : String) (rest : List String)
    (hn : n ≤ attempts) (h202 : (net.post host).status_code = 202)
    (hurl : (net.post host).x_blob_url.getD "" ≠ "")
    (hhead : ¬ net.head ((net.post host).x_blob_url.getD "") < 400) :
    upload_loop net a bh attempts n (host :: rest) =
      (false, none, [⟨host, a, bh⟩]) := by
  simp [upload_loop, hn, h202, hurl, hhead]

lemma upload_loop_auth (n : Nat) (host : String) (rest : List String)
    (hn : n ≤ attempts) (h202 : (net.post host).status_code ≠ 202)
    (hauth : (net.post host).status_code = 403 ∨ (net.post host).status_code = 401) :
    upload_loop net a bh attempts n (host :: rest) =
      (false, none, [⟨host, a, bh⟩]) := by
  simp [upload_loop, hn, h202, hauth]

lemma upload_loop_transient (n : Nat) (host : String) (rest : List String)
    (hn : n ≤ attempts) (htr : transient (net.post host)) :
    upload_loop net a bh attempts n (host :: rest) =
      ((upload_loop net a bh attempts (n + 1) rest).1,
       (upload_loop net a bh attempts (n + 1) rest).2.1,
       ⟨host, a, bh⟩ :: (upload_loop net a bh attempts (n + 1) rest).2.2) := by
  obtain ⟨h1, h2, h3⟩ := htr
  simp [upload_loop, hn, h1, h2, h3]

end LoopLemmas

section TraceLemmas

variable (net : Network) (a bh : String) (attempts : Nat)

/-- The hosts of the trace are an initial segment of the stack: the loop
contacts hosts in pop order and never skips one. -/
lemma upload_loop_trace_take :
    ∀ (stack : List String) (n : Nat),
      (upload_loop net a bh attempts n stack).2.2.map Attempt.host =
        stack.take (upload_loop net a bh attempts n stack).2.2.length
  | [], n => by simp [upload_loop_nil]
  | host :: rest, n => by
      by_cases hn : n ≤ attempts
      · by_cases h202 : (net.post host).status_code = 202
        · by_cases hurl : (net.post host).x_blob_url.getD "" = ""
          · simp [upload_loop_202_nourl net a bh attempts n host rest hn h202 hurl]
          · by_cases hh : net.head ((net.post host).x_blob_url.getD "") < 400
            · simp [upload_loop_202_head_ok net a bh attempts n host rest hn h202 hurl hh]
            · simp [upload_loop_202_head_bad net a bh attempts n host rest hn h202 hurl hh]
        · by_cases hauth : (net.post host).status_code = 403 ∨
              (net.post host).status_code = 401
          · simp [upload_loop_auth net a bh attempts n host rest hn h202 hauth]
          · have htr : transient (net.post host) := by
              refine ⟨h202, ?_, ?_⟩ <;> tauto
            have ih := upload_loop_trace_take rest (n + 1)
            simp [upload_loop_transient net a bh attempts n host rest hn htr, ih]
      · simp [upload_loop_budget net a bh attempts n host rest hn]

/-- The loop makes at most attempts + 1 - n further attempts when the
counter stands at n. -/
lemma upload_loop_trace_len :
    ∀ (stack : List String) (n : Nat),
      (upload_loop net a bh attempts n stack).2.2.length ≤ attempts + 1 - n
  | [], n => by simp [upload_loop_nil]
  | host :: rest, n => by
      by_cases hn : n ≤ attempts
      · by_cases h202 : (net.post host).status_code = 202
        · by_cases hurl : (net.post host).x_blob_url.getD "" = ""
          · simp [upload_loop_202_nourl net a bh attempts n host rest hn h202 hurl]
            omega
          · by_cases hh : net.head ((net.post host).x_blob_url.getD "") < 400
            · simp [upload_loop_202_head_ok net a bh attempts n host rest hn h202 hurl hh]
              omega
            · simp [upload_loop_202_head_bad net a bh attempts n host rest hn h202 hurl hh]
              omega
        · by_cases hauth : (net.post host).status_code = 403 ∨
              (net.post host).status_code = 401
          · simp [upload_loop_auth net a bh attempts n host rest hn h202 hauth]
            omega
          · have htr : transient (net.post host) := by
              refine ⟨h202, ?_, ?_⟩ <;> tauto
            have ih := upload_loop_trace_len rest (n + 1)
            simp only [upload_loop_transient net a bh attempts n host rest hn htr,
              List.length_cons]
            omega
      · simp [upload_loop_budget net a bh attempts n host rest hn]

/-- Every attempt the loop records carries the hashalgo and blobhash of the
call. -/
lemma upload_loop_trace_fields :
    ∀ (stack : List String) (n : Nat) (att : Attempt),
      att ∈ (upload_loop net a bh attempts n stack).2.2 →
        att.hashalgo = a ∧ att.blobhash = bh
  | [], n, att => by simp [upload_loop_nil]
  | host :: rest, n, att => by
      by_cases hn : n ≤ attempts
      · by_cases h202 : (net.post host).status_code = 202
        · by_cases hurl : (net.post host).x_blob_url.getD "" = ""
          · simp [upload_loop_202_nourl net a bh attempts n host rest hn h202 hurl]
            intro h; simp [h]
          · by_cases hh : net.head ((net.post host).x_blob_url.getD "") < 400
            · simp [upload_loop_202_head_ok net a bh attempts n host rest hn h202 hurl hh]
              intro h; simp [h]
            · simp [upload_loop_202_head_bad net a bh attempts n host rest hn h202 hurl hh]
              intro h; simp [h]
        · by_cases hauth : (net.post host).status_code = 403 ∨
              (net.post host).status_code = 401
          · simp [upload_loop_auth net a bh attempts n host rest hn h202 hauth]
            intro h; simp [h]
          · have htr : transient (net.post host) := by
              refine ⟨h202, ?_, ?_⟩ <;> tauto
            have ih := upload_loop_trace_fields rest (n + 1) att
            simp only [upload_loop_transient net a bh attempts n host rest hn htr,
              List.mem_cons]
            rintro (h | h)
            · simp [h]
            · exact ih h
      · simp [upload_loop_budget net a bh attempts n host rest hn]

end TraceLemmas

section SkipLemmas

variable (net : Network) (a bh : String) (attempts : Nat)

/-- Running the loop over a block of hosts that all answer with retryable
statuses appends one attempt per host and continues with the rest of the
stack, the counter advanced past the block. -/
lemma upload_loop_skip :
    ∀ (pre rest : List String) (n : Nat),
      (∀ x ∈ pre, transient (net.post x)) → n + pre.length ≤ attempts + 1 →
      upload_loop net a bh attempts n (pre ++ rest) =
        ((upload_loop net a bh attempts (n + pre.length) rest).1,
         (upload_loop net a bh attempts (n + pre.length) rest).2.1,
         pre.map (fun h => ⟨h, a, bh⟩) ++
           (upload_loop net a bh attempts (n + pre.length) rest).2.2)
  | [], rest, n => by intro _ _; simp
  | p :: pre, rest, n => by
      intro hpre hlen
      have hn : n ≤ attempts := by
        simp only [List.length_cons] at hlen; omega
      have htr : transient (net.post p) := hpre p (by simp)
      have ih := upload_loop_skip pre rest (n + 1)
        (fun x hx => hpre x (by simp [hx]))
        (by simp only [List.length_cons] at hlen; omega)
      have harith : n + 1 + pre.length = n + (p :: pre).length := by
        simp only [List.length_cons]; omega
      simp only [List.cons_append,
        upload_loop_transient net a bh attempts n p (pre ++ rest) hn htr, ih,
        harith, List.map_cons]

/-- When every host on the stack answers with a retryable status, the loop
fails after min of stack length and remaining budget attempts, one per host
in pop order. -/
lemma upload_loop_all_transient :
    ∀ (stack : List String) (n : Nat),
      (∀ x ∈ stack, transient (net.post x)) →
      upload_loop net a bh attempts n stack =
        (false, none, (stack.take (attempts + 1 - n)).map fun h => ⟨h, a, bh⟩)
  | [], n => by intro _; simp [upload_loop_nil]
  | host :: rest, n => by
      intro hst
      by_cases hn : n ≤ attempts
      · have htr := hst host (by simp)
        have ih := upload_loop_all_transient rest (n + 1)
          (fun x hx => hst x (by simp [hx]))
        have h1 : attempts + 1 - n = (attempts + 1 - (n + 1)) + 1 := by omega
        rw [upload_loop_transient net a bh attempts n host rest hn htr, ih, h1]
        simp [List.take_succ_cons]
      · have h0 : attempts + 1 - n = 0 := by omega
        simp [upload_loop_budget net a bh attempts n host rest hn, h0]

end SkipLemmas

section DirLemmas

variable (H : Hashlib) (net : Network) (shuffles : Nat → List String)
variable (hosts : List String) (dirname : String) (fs : String → List Nat)

/-- The j-th result of the directory loop started at index i is the
upload_file call for the j-th file with the shuffle of index i + j. -/
lemma upload_dir_loop_get :
    ∀ (files : List String) (i j : Nat),
      (upload_dir_loop H net shuffles hosts dirname fs i files)[j]? =
        (files[j]?).map fun f =>
          upload_file H net (shuffles (i + j)) hosts (path_join dirname f) fs
            default_hashalgo none default_attempts
  | [], i, j => by simp [upload_dir_loop]
  | f :: rest, i, 0 => by simp [upload_dir_loop]
  | f :: rest, i, j + 1 => by
      have ih := upload_dir_loop_get rest (i + 1) j
      have harith : i + 1 + j = i + (j + 1) := by omega
      simp only [upload_dir_loop, List.getElem?_cons_succ, ih, harith]

/-- The directory loop uploads exactly the listed files, joined to the
directory name, in order. -/
lemma upload_dir_loop_filenames :
    ∀ (files : List String) (i : Nat),
      (upload_dir_loop H net shuffles hosts dirname fs i files).map
          UploadResult.filename =
        files.map (path_join dirname)
  | [], i => by simp [upload_dir_loop]
  | f :: rest, i => by
      have ih := upload_dir_loop_filenames rest (i + 1)
      simp [upload_dir_loop, upload_file, ih]

end DirLemmas

section FileProjections

variable (H : Hashlib) (net : Network) (shuffled hosts : List String)
variable (filename : String) (fs : String → List Nat)
variable (hashalgo : String) (blobhash : Option String) (attempts : Nat)

lemma upload_file_trace_eq :
    (upload_file H net shuffled hosts filename fs hashalgo blobhash attempts).trace =
      (upload_loop net hashalgo (resolve_blobhash H fs filename hashalgo blobhash)
        attempts 1 shuffled.reverse).2.2 := rfl

lemma upload_file_uploaded_eq :
    (upload_file H net shuffled hosts filename fs hashalgo blobhash attempts).file_uploaded =
      (upload_loop net hashalgo (resolve_blobhash H fs filename hashalgo blobhash)
        attempts 1 shuffled.reverse).1 := rfl

lemma upload_file_url_eq :
    (upload_file H net shuffled hosts filename fs hashalgo blobhash attempts).blob_url =
      (upload_loop net hashalgo (resolve_blobhash H fs filename hashalgo blobhash)
        attempts 1 shuffled.reverse).2.1 := rfl

end FileProjections

/-! Concrete instances used by the witnesses. -/

/-- A concrete hashlib instance: the state collects the fed bytes and the
digest prints their count. -/
def testHashlib : Hashlib where
  State := List Nat
  new := fun _ => []
  update := fun s b => s ++ b
  hexdigest := fun s => toString s.length

/-- A filesystem with the same three bytes in every file. -/
def fs0 : String → List Nat := fun _ => [1, 2, 3]

/-- Every POST answers 500; HEAD answers 200. -/
def net500 : Network := ⟨fun _ => ⟨500, none⟩, fun _ => 200⟩

/-- Every POST answers 401; HEAD answers 200. -/
def net401 : Network := ⟨fun _ => ⟨401, none⟩, fun _ => 200⟩

/-- Every POST answers 202 with an x-blob-url; HEAD answers 200. -/
def netOK : Network := ⟨fun _ => ⟨202, some "https://cdn/x"⟩, fun _ => 200⟩

/-- Every POST answers 202 without an x-blob-url header. -/
def netNoUrl : Network := ⟨fun _ => ⟨202, none⟩, fun _ => 200⟩

/-- Host h2 accepts with an x-blob-url, the others answer 500. -/
def netMix : Network :=
  ⟨fun h => if h = "h2" then ⟨202, some "https://cdn/x"⟩ else ⟨500, none⟩,
   fun _ => 200⟩

/-- A directory in which the entry sub of directory d is not a regular
file. -/
def subIsfile : String → Bool := fun p => !(p == "d/sub")

/-- C1: for every host pool of size N and attempt budget M, one upload_file
call issues at most min(N, M) POST attempts, each against a distinct host
drawn from the pool without replacement, and no host is contacted twice in
the sequence. -/
theorem upload_file_attempts_bounded
    (H : Hashlib) (net : Network) (shuffled hosts : List String)
    (filename : String) (fs : String → List Nat) (hashalgo : String)
    (blobhash : Option String) (attempts : Nat)
    (hperm : shuffled.Perm hosts) (hnd : hosts.Nodup) :
    (upload_file H net shuffled hosts filename fs hashalgo blobhash
        attempts).trace.length ≤ min hosts.length attempts ∧
    ((upload_file H net shuffled hosts filename fs hashalgo blobhash
        attempts).trace.map Attempt.host).Nodup ∧
    ∀ att ∈ (upload_file H net shuffled hosts filename fs hashalgo blobhash
        attempts).trace, att.host ∈ hosts := by
  rw [upload_file_trace_eq]
  have htake := upload_loop_trace_take net hashalgo
    (resolve_blobhash H fs filename hashalgo blobhash) attempts shuffled.reverse 1
  have hbud := upload_loop_trace_len net hashalgo
    (resolve_blobhash H fs filename hashalgo blobhash) attempts shuffled.reverse 1
  have hslen : shuffled.reverse.length = hosts.length := by
    rw [List.length_reverse, hperm.length_eq]
  have hmaplen := congrArg List.length htake
  rw [List.length_map, List.length_take] at hmaplen
  have hnds : shuffled.reverse.Nodup :=
    List.nodup_reverse.mpr (hperm.nodup_iff.mpr hnd)
  refine ⟨?_, ?_, ?_⟩
  · have h1 : (upload_loop net hashalgo
        (resolve_blobhash H fs filename hashalgo blobhash) attempts
        1 shuffled.reverse).2.2.length ≤ hosts.length := by omega
    have h2 : (upload_loop net hashalgo
        (resolve_blobhash H fs filename hashalgo blobhash) attempts
        1 shuffled.reverse).2.2.length ≤ attempts := by omega
    exact le_min h1 h2
  · rw [htake]
    exact (List.take_sublist _ _).nodup hnds
  · intro att hatt
    have hmem : att.host ∈ shuffled.reverse := by
      have h1 : att.host ∈ (upload_loop net hashalgo
          (resolve_blobhash H fs filename hashalgo blobhash) attempts
          1 shuffled.reverse).2.2.map Attempt.host :=
        List.mem_map_of_mem Attempt.host hatt
      rw [htake] at h1
      exact List.take_subset _ _ h1
    rw [List.mem_reverse] at hmem
    exact hperm.subset hmem

/-- C1 witness: a concrete pool of two hosts with budget 10 makes at most
two attempts on distinct hosts of the pool. -/
theorem upload_file_attempts_bounded_witness :
    List.Perm ["h1", "h2"] ["h2", "h1"] ∧ List.Nodup ["h2", "h1"] ∧
    ((upload_file testHashlib net500 ["h1", "h2"] ["h2", "h1"] "f" fs0
        "sha512" (some "bh") 10).trace.length ≤
      min (["h2", "h1"] : List String).length 10 ∧
    ((upload_file testHashlib net500 ["h1", "h2"] ["h2", "h1"] "f" fs0
        "sha512" (some "bh") 10).trace.map Attempt.host).Nodup ∧
    ∀ att ∈ (upload_file testHashlib net500 ["h1", "h2"] ["h2", "h1"] "f" fs0
        "sha512" (some "bh") 10).trace, att.host ∈ ["h2", "h1"]) :=
  ⟨by decide, by decide,
    upload_file_attempts_bounded testHashlib net500 ["h1", "h2"] ["h2", "h1"]
      "f" fs0 "sha512" (some "bh") 10 (by decide) (by decide)⟩

/-- C8: upload_file works on a shuffled working copy of the hosts argument;
the list the caller passed is unchanged after the call, same elements in
the same order. -/
theorem upload_file_preserves_hosts
    (H : Hashlib) (net : Network) (shuffled hosts : List String)
    (filename : String) (fs : String → List Nat) (hashalgo : String)
    (blobhash : Option String) (attempts : Nat) :
    (upload_file H net shuffled hosts filename fs hashalgo blobhash
        attempts).caller_hosts = hosts := rfl

/-- C2: when the loop reaches a host whose POST returns 202 with an
x-blob-url header present (a non-empty URL value) and the HEAD of that URL
answers 2xx, upload_file stops with file_uploaded true and that blob URL,
and no host after it is contacted even when untried hosts remain. -/
theorem upload_file_success_stops
    (H : Hashlib) (net : Network) (shuffled hosts : List String)
    (filename : String) (fs : String → List Nat) (hashalgo : String)
    (blobhash : Option String) (attempts : Nat)
    (pre : List String) (h : String) (rest : List String) (u : String)
    (hstack : shuffled.reverse = pre ++ h :: rest)
    (hpre : ∀ x ∈ pre, transient (net.post x))
    (hbudget : 1 + pre.length ≤ attempts)
    (h202 : (net.post h).status_code = 202)
    (hurl : (net.post h).x_blob_url = some u)
    (hne : u ≠ "")
    (hhead : 200 ≤ net.head u ∧ net.head u < 300) :
    (upload_file H net shuffled hosts filename fs hashalgo blobhash
        attempts).file_uploaded = true ∧
    (upload_file H net shuffled hosts filename fs hashalgo blobhash
        attempts).blob_url = some u ∧
    (upload_file H net shuffled hosts filename fs hashalgo blobhash
        attempts).trace.map Attempt.host = pre ++ [h] := by
  rw [upload_file_uploaded_eq, upload_file_url_eq, upload_file_trace_eq, hstack]
  have hskip := upload_loop_skip net hashalgo
    (resolve_blobhash H fs filename hashalgo blobhash) attempts pre (h :: rest)
    1 hpre (by omega)
  rw [hskip]
  have hgd : (net.post h).x_blob_url.getD "" = u := by rw [hurl]; rfl
  have hstep := upload_loop_202_head_ok net hashalgo
    (resolve_blobhash H fs filename hashalgo blobhash) attempts
    (1 + pre.length) h rest hbudget h202
    (by rw [hgd]; exact hne) (by rw [hgd]; omega)
  rw [hstep, hgd]
  refine ⟨rfl, rfl, ?_⟩
  simp
  exact List.map_id pre

/-- C2 witness: pool of three hosts, the first popped answers 500 and the
second accepts with a HEAD-checked URL; the third host is never tried. -/
theorem upload_file_success_stops_witness :
    ((["h3", "h2", "h1"] : List String).reverse = ["h1"] ++ "h2" :: ["h3"] ∧
     (∀ x ∈ (["h1"] : List String), transient (netMix.post x)) ∧
     1 + (["h1"] : List String).length ≤ 10 ∧
     (netMix.post "h2").status_code = 202 ∧
     (netMix.post "h2").x_blob_url = some "https://cdn/x" ∧
     "https://cdn/x" ≠ "" ∧
     (200 ≤ netMix.head "https://cdn/x" ∧ netMix.head "https://cdn/x" < 300)) ∧
    ((upload_file testHashlib netMix ["h3", "h2", "h1"] ["h1", "h2", "h3"] "f"
        fs0 "sha512" (some "bh") 10).file_uploaded = true ∧
     (upload_file testHashlib netMix ["h3", "h2", "h1"] ["h1", "h2", "h3"] "f"
        fs0 "sha512" (some "bh") 10).blob_url = some "https://cdn/x" ∧
     (upload_file testHashlib netMix ["h3", "h2", "h1"] ["h1", "h2", "h3"] "f"
        fs0 "sha512" (some "bh") 10).trace.map Attempt.host =
       ["h1"] ++ ["h2"]) :=
  ⟨⟨by decide, by decide, by decide, by decide, by decide, by decide,
    by decide⟩,
   upload_file_success_stops testHashlib netMix ["h3", "h2", "h1"]
     ["h1", "h2", "h3"] "f" fs0 "sha512" (some "bh") 10 ["h1"] "h2" ["h3"]
     "https://cdn/x" (by decide) (by decide) (by decide) (by decide)
     (by decide) (by decide) (by decide)⟩

/-- C3: when the first popped host answers 401 or 403 the loop breaks after
that single attempt with file_uploaded false, whatever the pool size and
the attempt budget. -/
theorem upload_file_auth_aborts
    (H : Hashlib) (net : Network) (shuffled hosts : List String)
    (filename : String) (fs : String → List Nat) (hashalgo : String)
    (blobhash : Option String) (attempts : Nat)
    (h : String) (rest : List String)
    (hstack : shuffled.reverse = h :: rest)
    (hauth : (net.post h).status_code = 401 ∨ (net.post h).status_code = 403)
    (hatt : 1 ≤ attempts) :
    (upload_file H net shuffled hosts filename fs hashalgo blobhash
        attempts).trace.length = 1 ∧
    (upload_file H net shuffled hosts filename fs hashalgo blobhash
        attempts).file_uploaded = false ∧
    (upload_file H net shuffled hosts filename fs hashalgo blobhash
        attempts).blob_url = none := by
  rw [upload_file_uploaded_eq, upload_file_url_eq, upload_file_trace_eq, hstack]
  have hne202 : (net.post h).status_code ≠ 202 := by
    rcases hauth with h1 | h1 <;> simp [h1]
  have hstep := upload_loop_auth net hashalgo
    (resolve_blobhash H fs filename hashalgo blobhash) attempts 1 h rest
    hatt hne202 hauth.symm
  rw [hstep]
  exact ⟨rfl, rfl, rfl⟩

/-- C3 witness: two hosts and budget 10, the first popped host answers 401;
exactly one attempt is made and the upload fails. -/
theorem upload_file_auth_aborts_witness :
    ((["h1", "h2"] : List String).reverse = "h2" :: ["h1"] ∧
     ((net401.post "h2").status_code = 401 ∨
      (net401.post "h2").status_code = 403) ∧ 1 ≤ 10) ∧
    ((upload_file testHashlib net401 ["h1", "h2"] ["h1", "h2"] "f" fs0
        "sha512" (some "bh") 10).trace.length = 1 ∧
     (upload_file testHashlib net401 ["h1", "h2"] ["h1", "h2"] "f" fs0
        "sha512" (some "bh") 10).file_uploaded = false ∧
     (upload_file testHashlib net401 ["h1", "h2"] ["h1", "h2"] "f" fs0
        "sha512" (some "bh") 10).blob_url = none) :=
  ⟨⟨by decide, by decide, by decide⟩,
   upload_file_auth_aborts testHashlib net401 ["h1", "h2"] ["h1", "h2"] "f"
     fs0 "sha512" (some "bh") 10 "h2" ["h1"] (by decide) (by decide)
     (by decide)⟩

/-- C4: when every host of the pool answers a status outside 202, 401, 403
and the pool size is at least the attempt budget, upload_file makes exactly
attempts POST attempts and fails. -/
theorem upload_file_transient_exhausts
    (H : Hashlib) (net : Network) (shuffled hosts : List String)
    (filename : String) (fs : String → List Nat) (hashalgo : String)
    (blobhash : Option String) (attempts : Nat)
    (hperm : shuffled.Perm hosts)
    (htr : ∀ x ∈ hosts, transient (net.post x))
    (hsize : attempts ≤ hosts.length) :
    (upload_file H net shuffled hosts filename fs hashalgo blobhash
        attempts).trace.length = attempts ∧
    (upload_file H net shuffled hosts filename fs hashalgo blobhash
        attempts).file_uploaded = false ∧
    (upload_file H net shuffled hosts filename fs hashalgo blobhash
        attempts).blob_url = none := by
  rw [upload_file_uploaded_eq, upload_file_url_eq, upload_file_trace_eq]
  have hall : ∀ x ∈ shuffled.reverse, transient (net.post x) := fun x hx =>
    htr x (hperm.subset (List.mem_reverse.mp hx))
  rw [upload_loop_all_transient net hashalgo
    (resolve_blobhash H fs filename hashalgo blobhash) attempts
    shuffled.reverse 1 hall]
  refine ⟨?_, rfl, rfl⟩
  simp only [List.length_map, List.length_take, List.length_reverse,
    hperm.length_eq]
  omega

/-- C4 witness: three hosts all answering 500 with budget 2 give exactly
two failed attempts. -/
theorem upload_file_transient_exhausts_witness :
    (List.Perm ["h1", "h2", "h3"] ["h1", "h2", "h3"] ∧
     (∀ x ∈ (["h1", "h2", "h3"] : List String), transient (net500.post x)) ∧
     2 ≤ (["h1", "h2", "h3"] : List String).length) ∧
    ((upload_file testHashlib net500 ["h1", "h2", "h3"] ["h1", "h2", "h3"]
        "f" fs0 "sha512" (some "bh") 2).trace.length = 2 ∧
     (upload_file testHashlib net500 ["h1", "h2", "h3"] ["h1", "h2", "h3"]
        "f" fs0 "sha512" (some "bh") 2).file_uploaded = false ∧
     (upload_file testHashlib net500 ["h1", "h2", "h3"] ["h1", "h2", "h3"]
        "f" fs0 "sha512" (some "bh") 2).blob_url = none) :=
  ⟨⟨by decide, by decide, by decide⟩,
   upload_file_transient_exhausts testHashlib net500 ["h1", "h2", "h3"]
     ["h1", "h2", "h3"] "f" fs0 "sha512" (some "bh") 2 (by decide) (by decide)
     (by decide)⟩

/-- C5: when the loop reaches a host whose POST returns 202 without an
x-blob-url header, upload_file fails and no host after that attempt is
contacted. -/
theorem upload_file_missing_url_fails
    (H : Hashlib) (net : Network) (shuffled hosts : List String)
    (filename : String) (fs : String → List Nat) (hashalgo : String)
    (blobhash : Option String) (attempts : Nat)
    (pre : List String) (h : String) (rest : List String)
    (hstack : shuffled.reverse = pre ++ h :: rest)
    (hpre : ∀ x ∈ pre, transient (net.post x))
    (hbudget : 1 + pre.length ≤ attempts)
    (h202 : (net.post h).status_code = 202)
    (hurl : (net.post h).x_blob_url = none) :
    (upload_file H net shuffled hosts filename fs hashalgo blobhash
        attempts).file_uploaded = false ∧
    (upload_file H net shuffled hosts filename fs hashalgo blobhash
        attempts).blob_url = none ∧
    (upload_file H net shuffled hosts filename fs hashalgo blobhash
        attempts).trace.map Attempt.host = pre ++ [h] := by
  rw [upload_file_uploaded_eq, upload_file_url_eq, upload_file_trace_eq, hstack]
  have hskip := upload_loop_skip net hashalgo
    (resolve_blobhash H fs filename hashalgo blobhash) attempts pre (h :: rest)
    1 hpre (by omega)
  rw [hskip]
  have hgd : (net.post h).x_blob_url.getD "" = "" := by rw [hurl]; rfl
  have hstep := upload_loop_202_nourl net hashalgo
    (resolve_blobhash H fs filename hashalgo blobhash) attempts
    (1 + pre.length) h rest hbudget h202 hgd
  rw [hstep]
  refine ⟨rfl, rfl, ?_⟩
  simp
  exact List.map_id pre

/-- C5 witness: a single host answering 202 with no x-blob-url header gives
one attempt and a failed outcome. -/
theorem upload_file_missing_url_fails_witness :
    ((["h1"] : List String).reverse = [] ++ "h1" :: [] ∧
     (∀ x ∈ ([] : List String), transient (netNoUrl.post x)) ∧
     1 + ([] : List String).length ≤ 10 ∧
     (netNoUrl.post "h1").status_code = 202 ∧
     (netNoUrl.post "h1").x_blob_url = none) ∧
    ((upload_file testHashlib netNoUrl ["h1"] ["h1"] "f" fs0 "sha512"
        (some "bh") 10).file_uploaded = false ∧
     (upload_file testHashlib netNoUrl ["h1"] ["h1"] "f" fs0 "sha512"
        (some "bh") 10).blob_url = none ∧
     (upload_file testHashlib netNoUrl ["h1"] ["h1"] "f" fs0 "sha512"
        (some "bh") 10).trace.map Attempt.host = [] ++ ["h1"]) :=
  ⟨⟨by decide, by decide, by decide, by decide, by decide⟩,
   upload_file_missing_url_fails testHashlib netNoUrl ["h1"] ["h1"] "f" fs0
     "sha512" (some "bh") 10 [] "h1" [] (by decide) (by decide) (by decide)
     (by decide) (by decide)⟩

/-- C6: with an empty hosts list no POST attempt is made and upload_file
fails immediately. -/
theorem upload_file_empty_hosts
    (H : Hashlib) (net : Network) (shuffled : List String)
    (filename : String) (fs : String → List Nat) (hashalgo : String)
    (blobhash : Option String) (attempts : Nat)
    (hperm : shuffled.Perm ([] : List String)) :
    (upload_file H net shuffled [] filename fs hashalgo blobhash
        attempts).trace = [] ∧
    (upload_file H net shuffled [] filename fs hashalgo blobhash
        attempts).file_uploaded = false ∧
    (upload_file H net shuffled [] filename fs hashalgo blobhash
        attempts).blob_url = none := by
  have hnil : shuffled = [] := hperm.eq_nil
  subst hnil
  exact ⟨rfl, rfl, rfl⟩

/-- C6 witness: the empty pool gives an empty trace and a failed outcome. -/
theorem upload_file_empty_hosts_witness :
    List.Perm ([] : List String) ([] : List String) ∧
    ((upload_file testHashlib netOK [] [] "f" fs0 "sha512" (some "bh")
        10).trace = [] ∧
     (upload_file testHashlib netOK [] [] "f" fs0 "sha512" (some "bh")
        10).file_uploaded = false ∧
     (upload_file testHashlib netOK [] [] "f" fs0 "sha512" (some "bh")
        10).blob_url = none) :=
  ⟨by decide,
   upload_file_empty_hosts testHashlib netOK [] "f" fs0 "sha512" (some "bh")
     10 (by decide)⟩

/-- C9: filehash is deterministic over the file bytes and the algorithm,
and an upload_file call with blobhash omitted computes the digest once: a
recorded attempt, at any position of the trace, carries that same digest
and algorithm. -/
theorem filehash_deterministic_reused
    (H : Hashlib) (net : Network) (shuffled hosts : List String)
    (filename : String) (fs : String → List Nat) (hashalgo : String)
    (attempts : Nat) (c1 c2 : List Nat) (hc : c1 = c2)
    (i : Nat) (att : Attempt)
    (hatt : (upload_file H net shuffled hosts filename fs hashalgo none
        attempts).trace[i]? = some att) :
    filehash H c1 hashalgo = filehash H c2 hashalgo ∧
    att.blobhash = filehash H (fs filename) hashalgo ∧
    att.hashalgo = hashalgo := by
  constructor
  · rw [hc]
  · have hmem : att ∈ (upload_file H net shuffled hosts filename fs hashalgo
        none attempts).trace :=
      List.mem_iff_getElem?.mpr ⟨i, hatt⟩
    rw [upload_file_trace_eq] at hmem
    have hfields := upload_loop_trace_fields net hashalgo
      (resolve_blobhash H fs filename hashalgo none) attempts
      shuffled.reverse 1 att hmem
    exact ⟨hfields.2, hfields.1⟩

/-- C9 witness: one host, one attempt; the recorded attempt carries the
digest that filehash computes over the file bytes. -/
theorem filehash_deterministic_reused_witness :
    (([1, 2, 3] : List Nat) = [1, 2, 3] ∧
     (upload_file testHashlib net500 ["a"] ["a"] "f" fs0 "alg" none
        1).trace[0]? =
       some ⟨"a", "alg", filehash testHashlib (fs0 "f") "alg"⟩) ∧
    (filehash testHashlib [1, 2, 3] "alg" = filehash testHashlib [1, 2, 3] "alg" ∧
     (Attempt.blobhash ⟨"a", "alg", filehash testHashlib (fs0 "f") "alg"⟩ =
       filehash testHashlib (fs0 "f") "alg") ∧
     (Attempt.hashalgo ⟨"a", "alg", filehash testHashlib (fs0 "f") "alg"⟩ =
       "alg")) :=
  ⟨⟨rfl, rfl⟩,
   filehash_deterministic_reused testHashlib net500 ["a"] ["a"] "f" fs0 "alg"
     1 [1, 2, 3] [1, 2, 3] rfl 0
     ⟨"a", "alg", filehash testHashlib (fs0 "f") "alg"⟩ rfl⟩

/-- C7: upload_dir uploads exactly the immediate regular-file entries of
the directory, once each, in listing order and regardless of per-file
outcomes; every uploaded path satisfies the isfile predicate, so
subdirectories are never uploaded. -/
theorem upload_dir_uploads_each_file
    (H : Hashlib) (net : Network) (shuffles : Nat → List String)
    (hosts : List String) (dirname : String) (listdir : List String)
    (isfile : String → Bool) (fs : String → List Nat) (hashalgo : String)
    (j : Nat) (r : UploadResult)
    (hr : (upload_dir H net shuffles hosts dirname listdir isfile fs
        hashalgo)[j]? = some r) :
    (upload_dir H net shuffles hosts dirname listdir isfile fs hashalgo).map
        UploadResult.filename =
      (listdir.filter fun f => isfile (path_join dirname f)).map
        (path_join dirname) ∧
    (upload_dir H net shuffles hosts dirname listdir isfile fs
        hashalgo).length =
      (listdir.filter fun f => isfile (path_join dirname f)).length ∧
    (upload_dir H net shuffles hosts dirname listdir isfile fs hashalgo)[j]? =
      ((listdir.filter fun f => isfile (path_join dirname f))[j]?).map
        (fun f => upload_file H net (shuffles j) hosts (path_join dirname f) fs
          default_hashalgo none default_attempts) ∧
    isfile r.filename = true := by
  have heq : upload_dir H net shuffles hosts dirname listdir isfile fs
      hashalgo = upload_dir_loop H net shuffles hosts dirname fs 0
      (listdir.filter fun f => isfile (path_join dirname f)) := rfl
  have hnames := upload_dir_loop_filenames H net shuffles hosts dirname fs
    (listdir.filter fun f => isfile (path_join dirname f)) 0
  have hget := upload_dir_loop_get H net shuffles hosts dirname fs
    (listdir.filter fun f => isfile (path_join dirname f)) 0 j
  refine ⟨?_, ?_, ?_, ?_⟩
  · rw [heq]; exact hnames
  · have := congrArg List.length (heq ▸ hnames)
    simpa using this
  · rw [heq, hget]
    simp
  · have h1 : r.filename ∈ (upload_dir H net shuffles hosts dirname listdir
        isfile fs hashalgo).map UploadResult.filename :=
      List.mem_map_of_mem UploadResult.filename
        (List.mem_iff_getElem?.mpr ⟨j, hr⟩)
    rw [heq, hnames] at h1
    obtain ⟨f, hf, hjoin⟩ := List.mem_map.mp h1
    rw [← hjoin]
    exact (List.mem_filter.mp hf).2

/-- C7 witness: directory d with files a, b, c and subdirectory sub gives
exactly the three uploads d/a, d/b, d/c, the first of which is a regular
file. -/
theorem upload_dir_uploads_each_file_witness :
    ((upload_dir testHashlib net500 (fun _ => ["h1"]) ["h1"] "d"
        ["a", "b", "c", "sub"] subIsfile fs0 "alg")[0]? =
      some (upload_file testHashlib net500 ["h1"] ["h1"] "d/a" fs0
        default_hashalgo none default_attempts)) ∧
    ((upload_dir testHashlib net500 (fun _ => ["h1"]) ["h1"] "d"
        ["a", "b", "c", "sub"] subIsfile fs0 "alg").map
          UploadResult.filename =
        ((["a", "b", "c", "sub"] : List String).filter fun f =>
          subIsfile (path_join "d" f)).map (path_join "d") ∧
     (upload_dir testHashlib net500 (fun _ => ["h1"]) ["h1"] "d"
        ["a", "b", "c", "sub"] subIsfile fs0 "alg").length =
        ((["a", "b", "c", "sub"] : List String).filter fun f =>
          subIsfile (path_join "d" f)).length ∧
     (upload_dir testHashlib net500 (fun _ => ["h1"]) ["h1"] "d"
        ["a", "b", "c", "sub"] subIsfile fs0 "alg")[0]? =
        (((["a", "b", "c", "sub"] : List String).filter fun f =>
            subIsfile (path_join "d" f))[0]?).map (fun f =>
          upload_file testHashlib net500 ((fun _ => ["h1"] : Nat → List String) 0)
            ["h1"] (path_join "d" f) fs0 default_hashalgo none
            default_attempts) ∧
     subIsfile (upload_file testHashlib net500 ["h1"] ["h1"] "d/a" fs0
        default_hashalgo none default_attempts).filename = true) :=
  ⟨rfl,
   upload_dir_uploads_each_file testHashlib net500 (fun _ => ["h1"]) ["h1"]
     "d" ["a", "b", "c", "sub"] subIsfile fs0 "alg" 0
     (upload_file testHashlib net500 ["h1"] ["h1"] "d/a" fs0
       default_hashalgo none default_attempts) rfl⟩

/-- C10: upload_dir accepts a hashalgo argument but never forwards it: the
batch result is the same for any hashalgo argument, each per-file call is
upload_file with algorithm sha512, blobhash omitted and budget 10, every
recorded attempt carries hashalgo sha512 and the sha512 digest of the file,
and no file sees more than 10 attempts. -/
theorem upload_dir_ignores_hashalgo
    (H : Hashlib) (net : Network) (shuffles : Nat → List String)
    (hosts : List String) (dirname : String) (listdir : List String)
    (isfile : String → Bool) (fs : String → List Nat) (algo : String)
    (j i : Nat) (r : UploadResult) (att : Attempt)
    (hr : (upload_dir H net shuffles hosts dirname listdir isfile fs
        algo)[j]? = some r)
    (hatt : r.trace[i]? = some att) :
    upload_dir H net shuffles hosts dirname listdir isfile fs algo =
      upload_dir H net shuffles hosts dirname listdir isfile fs "sha512" ∧
    (upload_dir H net shuffles hosts dirname listdir isfile fs algo)[j]? =
      ((listdir.filter fun f => isfile (path_join dirname f))[j]?).map
        (fun f => upload_file H net (shuffles j) hosts (path_join dirname f)
          fs "sha512" none 10) ∧
    att.hashalgo = "sha512" ∧
    att.blobhash = filehash H (fs r.filename) "sha512" ∧
    r.trace.length ≤ 10 := by
  have hget := upload_dir_loop_get H net shuffles hosts dirname fs
    (listdir.filter fun f => isfile (path_join dirname f)) 0 j
  have heq : upload_dir H net shuffles hosts dirname listdir isfile fs
      algo = upload_dir_loop H net shuffles hosts dirname fs 0
      (listdir.filter fun f => isfile (path_join dirname f)) := rfl
  have hrj : ((listdir.filter fun f => isfile (path_join dirname f))[j]?).map
      (fun f => upload_file H net (shuffles (0 + j)) hosts
        (path_join dirname f) fs default_hashalgo none default_attempts) =
      some r := by
    rw [← hget, ← heq]; exact hr
  obtain ⟨f, hf, hrf⟩ := Option.map_eq_some'.mp hrj
  refine ⟨rfl, ?_, ?_⟩
  · rw [heq, hget]
    simp only [Nat.zero_add]
    rfl
  · subst hrf
    have hmem : att ∈ (upload_file H net (shuffles (0 + j)) hosts
        (path_join dirname f) fs default_hashalgo none
        default_attempts).trace :=
      List.mem_iff_getElem?.mpr ⟨i, hatt⟩
    rw [upload_file_trace_eq] at hmem
    have hfields := upload_loop_trace_fields net default_hashalgo
      (resolve_blobhash H fs (path_join dirname f) default_hashalgo none)
      default_attempts (shuffles (0 + j)).reverse 1 att hmem
    have hbud := upload_loop_trace_len net default_hashalgo
      (resolve_blobhash H fs (path_join dirname f) default_hashalgo none)
      default_attempts (shuffles (0 + j)).reverse 1
    refine ⟨hfields.1, hfields.2, ?_⟩
    rw [upload_file_trace_eq]
    exact hbud

/-- C10 witness: a batch over directory d called with algorithm alg
produces the same result as with sha512, and the recorded attempt of the
first file carries hashalgo sha512 and the sha512 digest. -/
theorem upload_dir_ignores_hashalgo_witness :
    (((upload_dir testHashlib net500 (fun _ => ["h1"]) ["h1"] "d"
        ["a", "b", "c", "sub"] subIsfile fs0 "alg")[0]? =
      some (upload_file testHashlib net500 ["h1"] ["h1"] "d/a" fs0
        default_hashalgo none default_attempts)) ∧
     ((upload_file testHashlib net500 ["h1"] ["h1"] "d/a" fs0
        default_hashalgo none default_attempts).trace[0]? =
      some ⟨"h1", "sha512", filehash testHashlib (fs0 "d/a") "sha512"⟩)) ∧
    (upload_dir testHashlib net500 (fun _ => ["h1"]) ["h1"] "d"
        ["a", "b", "c", "sub"] subIsfile fs0 "alg" =
      upload_dir testHashlib net500 (fun _ => ["h1"]) ["h1"] "d"
        ["a", "b", "c", "sub"] subIsfile fs0 "sha512" ∧
     (upload_dir testHashlib net500 (fun _ => ["h1"]) ["h1"] "d"
        ["a", "b", "c", "sub"] subIsfile fs0 "alg")[0]? =
      (((["a", "b", "c", "sub"] : List String).filter fun f =>
          subIsfile (path_join "d" f))[0]?).map
        (fun f => upload_file testHashlib net500
          ((fun _ => ["h1"] : Nat → List String) 0) ["h1"]
          (path_join "d" f) fs0 "sha512" none 10) ∧
     Attempt.hashalgo ⟨"h1", "sha512",
        filehash testHashlib (fs0 "d/a") "sha512"⟩ = "sha512" ∧
     Attempt.blobhash ⟨"h1", "sha512",
        filehash testHashlib (fs0 "d/a") "sha512"⟩ =
       filehash testHashlib
         (fs0 (upload_file testHashlib net500 ["h1"] ["h1"] "d/a" fs0
           default_hashalgo none default_attempts).filename) "sha512" ∧
     (upload_file testHashlib net500 ["h1"] ["h1"] "d/a" fs0
        default_hashalgo none default_attempts).trace.length ≤ 10) :=
  ⟨⟨rfl, rfl⟩,
   upload_dir_ignores_hashalgo testHashlib net500 (fun _ => ["h1"]) ["h1"]
     "d" ["a", "b", "c", "sub"] subIsfile fs0 "alg" 0 0
     (upload_file testHashlib net500 ["h1"] ["h1"] "d/a" fs0
       default_hashalgo none default_attempts)
     ⟨"h1", "sha512", filehash testHashlib (fs0 "d/a") "sha512"⟩ rfl rfl⟩
